import Mathlib

/-!
# Verification of the sankey-plotly-react data pipeline

A shallow embedding, in Lean 4, of the data-processing pipeline of
`src/dataProcessor.ts` (the core of the repository): percentage
normalisation, per-entity moving average, annual snapshot with forward
fill, weight transformation and percentile clipping, bucket
classification, flow aggregation (active and exit flows), node and link
construction and the deterministic layout.

Modelling conventions:
* JavaScript numbers are modelled by `ℚ` (exact rational arithmetic);
  `null`/`undefined`/`NaN` cells are modelled by `Option ℚ` with `none`.
  Every rational is finite, so the `isFinite` guards of the source hold
  automatically for defined values; `none` covers the missing and
  non-finite cases alike.
* The logarithm used by the `signed_log` transform is real-valued, so the
  scalar transform itself is embedded over `ℝ` (`signedLogW`), while the
  surrounding pipeline is embedded over `ℚ` and is parametric in the
  scalar transform `logFn : ℚ → ℚ` standing for `v ↦ Math.log v`.  No
  stage after the transform inspects the weights beyond ordered-field
  operations, so every structural claim is proved for all `logFn`.
* Timestamps `DT` are modelled as pairs `(year, sub)` ordered
  lexicographically; `dt.year()` is the first component.
* danfo `DataFrame`s are lists of records; `groupby` keys are taken in
  first-appearance order (`dedupF`), matching danfo; `merge` on a key is
  the list product filtered on key equality; `dropna` filters out records
  with a `none` field; column sums skip `none` cells.
-/

attribute [local semireducible] Rat.add Rat.mul Rat.sub Rat.inv Rat.ofScientific

/-- `Math.abs`-style absolute value on `ℚ`. -/
def qabs (q : ℚ) : ℚ := |q|

/-- First-appearance deduplication, the key order used by danfo `groupby`
and `unique`. -/
def dedupF {α : Type} [DecidableEq α] (l : List α) : List α :=
  l.foldl (fun acc k => if k ∈ acc then acc else acc ++ [k]) []

/-- Index of the first occurrence of `a` in `l`, as the JS object lookup
`node_id[key]` (`none` models `undefined`). -/
def lookupIdx {α : Type} [DecidableEq α] : List α → α → Option Nat
  | [], _ => none
  | x :: xs, a => if x = a then some 0 else (lookupIdx xs a).map (· + 1)

/-- Sum of the defined entries of an optional column (danfo `sum` skips
`NaN` cells). -/
def optSum (l : List (Option ℚ)) : ℚ := (l.filterMap id).sum

/-- The last defined value of an optional column, `none` when every entry
is missing. -/
def lastSome (l : List (Option ℚ)) : Option ℚ :=
  l.foldl (fun acc v => if v.isSome then v else acc) none

/-- Forward fill (danfo `fillNa` with method `ffill`): each missing entry
takes the nearest preceding defined value, threaded through `acc`. -/
def ffillGo (acc : Option ℚ) : List (Option ℚ) → List (Option ℚ)
  | [] => []
  | v :: vs =>
    let cur := if v.isSome then v else acc
    cur :: ffillGo cur vs

/-- `series.fillNa({method: 'ffill'})` on a column. -/
def ffillList (l : List (Option ℚ)) : List (Option ℚ) := ffillGo none l

-- --- Constants of `src/dataProcessor.ts` (lines 23-56) ---

def INDICATOR_COL : String := "total_deposits"
def MA_MONTHS : Nat := 12
def STEP_YEARS : Int := 4

/-- One entry of `OWN_BUCKETS`. -/
structure BucketRange where
  lo : ℚ
  hi : ℚ
  name : String
deriving DecidableEq, Repr

/-- `OWN_BUCKETS` (source lines 28-34): ordered list of percentage
ranges; `100.1` is the literal upper bound of the top bucket. -/
def OWN_BUCKETS : List BucketRange :=
  [⟨50, 1001/10, "State ≥50%"⟩,
   ⟨20, 50, "State 20–50%"⟩,
   ⟨10, 20, "State 10–20%"⟩,
   ⟨0, 10, "State 0–10%"⟩,
   ⟨0, 0, "State 0%"⟩]

def UNKNOWN_LABEL : String := "Unknown"
def EXIT_LABEL : String := "Exit"
def UNIT_SCALE : ℚ := 10 ^ 9
def CLIP_LO : ℚ := 2 / 100
def CLIP_HI : ℚ := 98 / 100

def GREEN : String := "rgba(76,175,80,0.65)"
def RED : String := "rgba(244,67,54,0.70)"

/-- `NODE_COLORS` as an association list (source lines 47-55). -/
def NODE_COLORS : List (String × String) :=
  [("State ≥50%", "rgba(244,67,54,0.90)"),
   ("State 20–50%", "rgba(255,193,7,0.90)"),
   ("State 10–20%", "rgba(0,150,136,0.90)"),
   ("State 0–10%", "rgba(63,81,181,0.90)"),
   ("State 0%", "rgba(33,150,243,0.90)"),
   (UNKNOWN_LABEL, "rgba(158,158,158,0.80)"),
   (EXIT_LABEL, "rgba(120,120,120,0.75)")]

/-- `CAT_ORDER = [...OWN_BUCKETS.map(b => b.name), UNKNOWN_LABEL, EXIT_LABEL]`. -/
def CAT_ORDER : List String := OWN_BUCKETS.map (·.name) ++ [UNKNOWN_LABEL, EXIT_LABEL]

/-- The `1e-12` tolerance of `getBucket`. -/
def eps12 : ℚ := 1 / 10 ^ 12

/-- The `1e-9` threshold used for step totals and column weights. -/
def eps9 : ℚ := 1 / 10 ^ 9

/-- `getBucket` (source lines 131-137).  `none` models a missing or
non-finite percentage (`p === null || p === undefined || !isFinite(p)`).
The zero test `Math.abs(p) < 1e-12` precedes the range search; the range
search scans `OWN_BUCKETS` in order for the first bucket other than
`State 0%` with `p > lo - 1e-12 && p < hi + 1e-12`. -/
def getBucket (p : Option ℚ) : String :=
  match p with
  | none => UNKNOWN_LABEL
  | some q =>
    if qabs q < eps12 then "State 0%"
    else
      match OWN_BUCKETS.find? (fun b =>
        decide (b.name ≠ "State 0%") && decide (b.lo - eps12 < q) &&
          decide (q < b.hi + eps12)) with
      | some b => b.name
      | none => UNKNOWN_LABEL

-- --- Rows and sorting ---

/-- One input row of the table: `REGN` (entity id, numeric), `DT`
(timestamp, modelled as a lexicographically ordered pair of year and
intra-year ordinal), `state_equity_pct` and `total_deposits` columns,
and the `indicator_ma` column added by the smoothing stage. -/
structure MRow where
  regn : Int
  dtY : Int
  dtS : Int
  pct : Option ℚ
  ind : Option ℚ
  ma : Option ℚ := none
deriving DecidableEq, Repr

/-- Sort key used by `sortValues(['REGN','year','DT'])` and
`sortValues(['REGN','DT'])` alike (`year` is `DT.year`, so both orders
coincide). -/
def rowKey (r : MRow) : Int × Int × Int := (r.regn, r.dtY, r.dtS)

/-- Lexicographic order on the sort key. -/
def tripleLe (a b : Int × Int × Int) : Prop :=
  a.1 < b.1 ∨ (a.1 = b.1 ∧ (a.2.1 < b.2.1 ∨ (a.2.1 = b.2.1 ∧ a.2.2 ≤ b.2.2)))

instance tripleLeDec : DecidableRel tripleLe := fun _ _ => by
  unfold tripleLe; infer_instance

/-- `DF.sortValues` (stable sort, as JS `Array.prototype.sort`). -/
def sortRows (rows : List MRow) : List MRow :=
  List.insertionSort (fun a b => tripleLe (rowKey a) (rowKey b)) rows

-- --- Stage 1: standardizePercent (source lines 61-75) ---

/-- `standardizePercent` on the percentage column: sort the absolute
values of the defined entries, take the value at rank
`floor(0.95 * (n - 1))`; if it is `> 1.5` leave the column unchanged,
otherwise multiply every entry by 100. -/
def standardizePercent (ps : List (Option ℚ)) : List (Option ℚ) :=
  let arr := ps.filterMap id
  if arr.length = 0 then ps
  else
    let absArr := List.insertionSort (· ≤ ·) (arr.map qabs)
    let p95 := absArr.getD (Nat.floor ((95 : ℚ) / 100 * ((absArr.length : ℚ) - 1))) 0
    if 3 / 2 < p95 then ps else ps.map (Option.map (· * 100))

/-- Apply `standardizePercent` to the `state_equity_pct` column of the
table, positionally as danfo does. -/
def pctScaled (rows : List MRow) : List MRow :=
  (rows.zip (standardizePercent (rows.map (·.pct)))).map
    (fun rp => { rp.1 with pct := rp.2 })

-- --- Stage 2: per-entity trailing moving average (source lines 156-171) ---

/-- `Math.max(1, Math.floor(MA_MONTHS / 3))`. -/
def minPeriods : Nat := max 1 (MA_MONTHS / 3)

/-- The rolling mean at index `i` of a column: trailing window of the
last `MA_MONTHS` entries up to and including `i`, missing values
excluded from both the sum and the minimum-period count. -/
def maAt (vals : List (Option ℚ)) (i : Nat) : Option ℚ :=
  let win := ((vals.take (i + 1)).drop (i + 1 - MA_MONTHS)).filterMap id
  if minPeriods ≤ win.length then some (win.sum / (win.length : ℚ)) else none

/-- Attach the `indicator_ma` column within one entity group. -/
def attachMa (g : List MRow) : List MRow :=
  g.mapIdx (fun i r => { r with ma := maAt (g.map (·.ind)) i })

/-- The smoothing stage: rows sorted by `(REGN, DT)`, grouped by entity
in ascending key order, rolling mean applied per group, groups
re-concatenated (which reproduces the sorted order, the alignment the
source relies on). -/
def maStage (rows : List MRow) : List MRow :=
  let sorted := sortRows rows
  (dedupF (sorted.map (·.regn))).flatMap
    (fun k => attachMa (sorted.filter (fun r => decide (r.regn = k))))

-- --- Stage 3: yearEndSnapshotFfill (source lines 77-117) and merge ---

/-- The `(REGN, year)` keys of `yearEndSnapshotFfill`, in the order of
the sorted frame (`unique()` keeps first appearances). -/
def snapKeys (rows : List MRow) : List (Int × Int) :=
  dedupF ((sortRows rows).map (fun r => (r.regn, r.dtY)))

/-- The rows of one `(REGN, year)` group, in `(REGN, year, DT)` order. -/
def groupRows (rows : List MRow) (k : Int × Int) : List MRow :=
  (sortRows rows).filter (fun r => decide (r.regn = k.1) && decide (r.dtY = k.2))

/-- Forward-fill a column inside a group and keep the entry of the last
row, as `fillNa(ffill)` followed by `groupby.tail(1)` does.  `none` when
the group is empty. -/
def ffillLastVal (l : List (Option ℚ)) : Option ℚ :=
  ((ffillList l).getLast?).join

/-- One merged snapshot row prior to the weight transform: the
`(state_equity_pct, indicator_ma)` snapshot left-merged with the
`total_deposits` snapshot on `(REGN, year)` (both snapshots have the
same key set, built from the same rows), `ma` not yet patched. -/
structure MergedRow where
  regn : Int
  year : Int
  pct : Option ℚ
  ma : Option ℚ
  ind : Option ℚ
deriving DecidableEq, Repr

/-- The snapshot of one `(REGN, year)` key: each requested column
forward-filled within the group, last row kept, then the
`indicator_ma = isNa ? indicator_raw : indicator_ma` patch of source
lines 184-188. -/
def mergedSnapRow (rows : List MRow) (k : Int × Int) : MergedRow :=
  let g := groupRows rows k
  let m := ffillLastVal (g.map (·.ma))
  let i := ffillLastVal (g.map (·.ind))
  { regn := k.1, year := k.2,
    pct := ffillLastVal (g.map (·.pct)),
    ma := if m.isSome then m else i,
    ind := i }

-- --- Stage 4: weight transform and global clip (source lines 190-212) ---

/-- Percentile clip bounds: the sorted defined transformed weights at
ranks `floor(CLIP_LO * (n - 1))` and `floor(CLIP_HI * (n - 1))`;
`none` when every weight is missing. -/
def clipBoundsOf (ws : List (Option ℚ)) : Option (ℚ × ℚ) :=
  let arr := List.insertionSort (· ≤ ·) (ws.filterMap id)
  if arr.length = 0 then none
  else some (arr.getD (Nat.floor (CLIP_LO * ((arr.length : ℚ) - 1))) 0,
             arr.getD (Nat.floor (CLIP_HI * ((arr.length : ℚ) - 1))) 0)

/-- The global clip of source lines 202-212: applied to every
transformed weight exactly when the bounds exist and `hi > lo`
(rationals are always finite, so the `isFinite` guards hold whenever
the bounds exist). -/
def applyGlobalClip (ws : List (Option ℚ)) : List (Option ℚ) :=
  match clipBoundsOf ws with
  | none => ws
  | some lh =>
    if lh.1 < lh.2 then ws.map (Option.map (fun v => min (max v lh.1) lh.2)) else ws

/-- The scalar `signed_log` transform followed by `clip(lower 0)`, with
`logFn` standing for `Math.log`: `w_t = max(log(|v| + 1), 0)`. -/
def wTransform (logFn : ℚ → ℚ) (v : ℚ) : ℚ := max (logFn (qabs v + 1)) 0

/-- The `signed_log` transform over the reals, with the actual natural
logarithm (`t = s.abs().add(1).log()` then `clip(lower 0)`, source
lines 192-197): this is `wTransform` at `logFn = Real.log`. -/
noncomputable def signedLogW (v : ℝ) : ℝ := max (Real.log (|v| + 1)) 0

-- --- Stage 5: bucket column; the weighted snapshot table ---

/-- A weighted, bucketed snapshot row (the data the flow builder reads
from `mergedSnap`): transformed weight `w_t`, raw weight `w_raw` and the
`bucket` column. -/
structure WSnap where
  regn : Int
  year : Int
  w : Option ℚ
  raw : Option ℚ
  bucket : String
deriving DecidableEq, Repr

/-- Stages 1-5 combined: scaling, smoothing, snapshot with forward fill
and merge, weight transform, global clip and bucket classification. -/
def snapStage (logFn : ℚ → ℚ) (rows : List MRow) : List WSnap :=
  let rows1 := maStage (pctScaled rows)
  let merged := (snapKeys rows1).map (mergedSnapRow rows1)
  let wts := applyGlobalClip (merged.map (fun m => m.ma.map (wTransform logFn)))
  (merged.zip wts).map (fun mw =>
    { regn := mw.1.regn, year := mw.1.year, w := mw.2,
      raw := mw.1.ma.map (fun v => max v 0),
      bucket := getBucket mw.1.pct })

-- --- Stage 6: year grid and flow aggregation (source lines 120-129, 216-272) ---

/-- `buildYearGrid` (source lines 120-129): `min_year`, stepping by
`step` while `≤ max_year`, with `max_year` appended when the loop ended
below it (or produced nothing). -/
def buildYearGrid (mn mx step : Int) : List Int :=
  let n : Nat := if mn ≤ mx then ((mx - mn) / step).toNat + 1 else 0
  let ys := (List.range n).map (fun i => mn + step * (i : Int))
  match ys.getLast? with
  | none => [mx]
  | some l => if l < mx then ys ++ [mx] else ys

/-- The step grid of a snapshot table; the empty snapshot (whose danfo
`min`/`max` are `NaN` and whose grid `[NaN]` has fewer than 2 entries)
is modelled by the empty grid, which fails the same `< 2` test. -/
def yearsOf (snaps : List WSnap) : List Int :=
  match (snaps.map (·.year)).min?, (snaps.map (·.year)).max? with
  | some mn, some mx => buildYearGrid mn mx STEP_YEARS
  | _, _ => []

/-- One aggregated flow edge (a row of `linksDf`). -/
structure LinkRow where
  catFrom : String
  catTo : String
  weight : ℚ
  cnt : Nat
  rawSum : ℚ
  levelFrom : Int
  levelTo : Int
  isExit : Bool
deriving DecidableEq, Repr

/-- A row of the inner merge of `s0` and `s1` on `REGN` (all matching
pairs, as danfo `merge` produces). -/
structure JoinRow where
  regn : Int
  catFrom : String
  w : Option ℚ
  raw : Option ℚ
  catTo : String
deriving DecidableEq, Repr

/-- `df.merge({left: s0, right: s1, on: ['REGN'], how: 'inner'})`. -/
def joinRows (s0 s1 : List WSnap) : List JoinRow :=
  s0.flatMap (fun r => (s1.filter (fun r1 => decide (r1.regn = r.regn))).map
    (fun r1 => { regn := r.regn, catFrom := r.bucket, w := r.w, raw := r.raw,
                 catTo := r1.bucket }))

/-- The merge followed by `.dropna()`: rows whose `w` or `raw` cell is
missing are removed (the string and id columns are never missing). -/
def bothRows (s0 s1 : List WSnap) : List JoinRow :=
  (joinRows s0 s1).filter (fun j => j.w.isSome && j.raw.isSome)

/-- Active flows of one consecutive grid pair: group `bothRows` by
`(cat_from, cat_to)`, aggregate `sum(w)`, `count(REGN)`, `sum(raw)`,
tag with `level_from = y0`, `level_to = y1`. -/
def stepActiveLinks (y0 y1 : Int) (s0 s1 : List WSnap) : List LinkRow :=
  let rows := bothRows s0 s1
  (dedupF (rows.map (fun j => (j.catFrom, j.catTo)))).map (fun k =>
    let g := rows.filter (fun j => decide (j.catFrom = k.1) && decide (j.catTo = k.2))
    { catFrom := k.1, catTo := k.2, weight := optSum (g.map (·.w)), cnt := g.length,
      rawSum := optSum (g.map (·.raw)), levelFrom := y0, levelTo := y1,
      isExit := false })

/-- The `left_only` rows of the indicator left-merge: entities of `s0`
absent from `s1`. -/
def goneRows (s0 s1 : List WSnap) : List WSnap :=
  s0.filter (fun r => !(s1.any (fun r1 => decide (r1.regn = r.regn))))

/-- Exit flows of one consecutive grid pair: group the exited entities
by `cat_from`, same aggregates, `cat_to := EXIT_LABEL`,
`level_from = level_to = y0` (exit recorded in the same year). -/
def stepExitLinks (y0 : Int) (s0 s1 : List WSnap) : List LinkRow :=
  let rows := goneRows s0 s1
  (dedupF (rows.map (·.bucket))).map (fun c =>
    let g := rows.filter (fun r => decide (r.bucket = c))
    { catFrom := c, catTo := EXIT_LABEL, weight := optSum (g.map (·.w)),
      cnt := g.length, rawSum := optSum (g.map (·.raw)), levelFrom := y0,
      levelTo := y0, isExit := true })

/-- The snapshot rows of one grid year. -/
def snapsAt (snaps : List WSnap) (y : Int) : List WSnap :=
  snaps.filter (fun r => decide (r.year = y))

/-- The loop of source lines 224-269: for every consecutive grid pair,
active links then exit links. -/
def linkRowsOf (snaps : List WSnap) (years : List Int) : List LinkRow :=
  (years.zip years.tail).flatMap (fun p =>
    stepActiveLinks p.1 p.2 (snapsAt snaps p.1) (snapsAt snaps p.2) ++
    stepExitLinks p.1 (snapsAt snaps p.1) (snapsAt snaps p.2))

-- --- Stage 7: nodes, links, layout (source lines 274-382) ---

/-- The node registration loop of source lines 279-289: one node per
`(grid year, category)` combination, years outermost, categories in
`CAT_ORDER`; the grid never repeats a year, so the `in node_id` guard
never skips. -/
def nodePairs (years : List Int) : List (Int × String) :=
  years.flatMap (fun y => CAT_ORDER.map (fun c => (y, c)))

/-- The label `` `${year}: ${cat}` ``. -/
def nodeLabel (p : Int × String) : String := toString p.1 ++ ": " ++ p.2

/-- `NODE_COLORS[cat] || 'rgba(150,150,150,0.85)'`. -/
def nodeColorOf (c : String) : String :=
  match NODE_COLORS.find? (fun e => decide (e.1 = c)) with
  | some e => e.2
  | none => "rgba(150,150,150,0.85)"

/-- A final link (`SankeyLink` plus the `weight` field the layout loop
reads).  `source`/`target` are `Option Nat`: `none` models the JS
`undefined` of a failed `node_id` lookup. -/
structure OutLink where
  source : Option Nat
  target : Option Nat
  weight : ℚ
  value_abs : ℚ
  value_share : ℚ
  color : String
  custom1 : ℚ
  custom2 : ℚ
deriving DecidableEq, Repr

/-- `step_total`: the groupby-transform sum of `weight` over all link
rows sharing this row's `(level_from, level_to)`. -/
def stepTotal (lrs : List LinkRow) (r : LinkRow) : ℚ :=
  ((lrs.filter (fun r2 => decide (r2.levelFrom = r.levelFrom) &&
    decide (r2.levelTo = r.levelTo))).map (·.weight)).sum

/-- `value_share`: `step_total > 1e-9 ? weight / step_total * 100 : 0`. -/
def shareOf (lrs : List LinkRow) (r : LinkRow) : ℚ :=
  if eps9 < stepTotal lrs r then r.weight / stepTotal lrs r * 100 else 0

/-- Source lines 292-319: attach node indices, `value_abs`,
`value_share`, color and customdata to every link row. -/
def mkLinks (years : List Int) (lrs : List LinkRow) : List OutLink :=
  lrs.map (fun r =>
    { source := lookupIdx (nodePairs years) (r.levelFrom, r.catFrom),
      target := lookupIdx (nodePairs years) (r.levelTo, r.catTo),
      weight := r.weight,
      value_abs := r.weight / UNIT_SCALE,
      value_share := shareOf lrs r,
      color := if r.isExit then RED else GREEN,
      custom1 := shareOf lrs r,
      custom2 := r.rawSum / UNIT_SCALE })

/-- X coordinates (source lines 322-334): per-year linear interpolation
inside the margins, Exit nodes nudged right by `1e-6`.  The source
recovers `(year, cat)` by splitting the label on `': '`, which is exact
because no category name contains that separator. -/
def xsOf (years : List Int) : List ℚ :=
  let dx := (1 - 1/20 - 1/20) / ((years.length : ℚ) - 1)
  (nodePairs years).map (fun p =>
    1/20 + (((lookupIdx years p.1).getD 0 : ℕ) : ℚ) * dx +
      (if p.2 = EXIT_LABEL then 1 / 10 ^ 6 else 0))

/-- `nodeWeights[i]`: each link with defined numeric endpoints adds its
`weight` to its source and to its target (source lines 337-343). -/
def nodeWeight (links : List OutLink) (i : Nat) : ℚ :=
  (links.map (fun l =>
    if l.source.isSome && l.target.isSome then
      (if l.source = some i then l.weight else 0) +
        (if l.target = some i then l.weight else 0)
    else 0)).sum

/-- The proportional-allocation walk of one year column (source lines
360-367): `cur` is the cumulative offset from the top margin, converted
to the bottom-up convention by `1 - (cur + h/2)`. -/
def colYsGo (total : ℚ) (cur : ℚ) : List ℚ → List ℚ
  | [] => []
  | w :: rest =>
    let h := w / total * (9/10)
    (1 - (cur + h / 2)) :: colYsGo total (cur + h) rest

/-- Y coordinates of one year column from its node weights (the column
indices are already in `CAT_ORDER` order, so the sort of source line 352
is the identity): proportional spans when the column weight exceeds
`1e-9`, else even spacing (source lines 349-378). -/
def colYs (wts : List ℚ) : List ℚ :=
  if eps9 < wts.sum then colYsGo wts.sum (1/20) wts
  else
    let step := (9/10) / ((wts.length : ℚ))
    (List.range wts.length).map (fun (i : ℕ) => 1 - (1/20 + (i : ℚ) * step + step / 2))

/-- All Y coordinates, per year column in node order; every node belongs
to exactly one column, so the `0.5` initialisation of source line 345 is
always overwritten. -/
def ysOf (years : List Int) (links : List OutLink) : List ℚ :=
  (List.range years.length).flatMap (fun j =>
    colYs ((List.range CAT_ORDER.length).map
      (fun k => nodeWeight links (j * CAT_ORDER.length + k))))

/-- The returned `SankeyData`. -/
structure SankeyOut where
  nodes : List String
  node_colors : List String
  xs : List ℚ
  ys : List ℚ
  links : List OutLink
  title : String
deriving DecidableEq, Repr

/-- The input table: its declared column names (for the schema check)
and its decoded typed rows (decoding is the out-of-scope ingestion
collaborator). -/
structure Table where
  cols : List String
  rows : List MRow
deriving Repr

/-- The four required columns, in the order checked at source line 146. -/
def REQUIRED_COLS : List String := ["DT", "REGN", INDICATOR_COL, "state_equity_pct"]

/-- The first required column absent from the table, if any. -/
def missingCol (t : Table) : Option String :=
  REQUIRED_COLS.find? (fun c => !(t.cols.contains c))

/-- The title of source line 380. -/
def titleStr : String :=
  "Ownership buckets (step=4y) — Weight = 12M MA of " ++ INDICATOR_COL

/-- The complete graph returned on success (source lines 274-382). -/
def mkOut (snaps : List WSnap) (years : List Int) : SankeyOut :=
  { nodes := (nodePairs years).map nodeLabel,
    node_colors := (nodePairs years).map (fun p => nodeColorOf p.2),
    xs := xsOf years,
    ys := ysOf years (mkLinks years (linkRowsOf snaps years)),
    links := mkLinks years (linkRowsOf snaps years),
    title := titleStr }

/-- `processParquetData` (source lines 140-383) as a total function into
`Except`: a thrown `Error` is `Except.error` with its message (quotes
around the column name omitted).  `logFn` stands for `Math.log`. -/
def processParquetData (logFn : ℚ → ℚ) (t : Table) : Except String SankeyOut :=
  match missingCol t with
  | some c => .error ("Expected column " ++ c ++ " not found in data")
  | none =>
    if (yearsOf (snapStage logFn t.rows)).length < 2 then
      .error "Not enough annual steps to build a time-sankey."
    else if (linkRowsOf (snapStage logFn t.rows) (yearsOf (snapStage logFn t.rows))).length = 0 then
      .error "No flows computed. Check data availability across 4-year steps."
    else
      .ok (mkOut (snapStage logFn t.rows) (yearsOf (snapStage logFn t.rows)))

-- --- Sample inputs used by closed witnesses and counterexamples ---

/-- A concrete stand-in for `Math.log` used only in closed evaluations
of the pipeline; the node, grid and link *structure* under scrutiny in
those evaluations does not depend on which monotone transform is
plugged in, and the structural theorems are proved for every `logFn`. -/
def sampleLog : ℚ → ℚ := fun q => q

/-- A minimal well-formed table: one entity, state share 60%, volume 5,
observed in 2020 and 2024. -/
def sampleTable : Table :=
  { cols := ["DT", "REGN", "total_deposits", "state_equity_pct"],
    rows := [{ regn := 1, dtY := 2020, dtS := 0, pct := some 60, ind := some 5 },
             { regn := 1, dtY := 2024, dtS := 0, pct := some 60, ind := some 5 }] }

/-- A table whose volume indicator is entirely missing: the lone
entity appears in both grid years, so no exit flow arises, and the
active join is emptied by `dropna()` — zero edges overall. -/
def sampleNoFlows : Table :=
  { cols := ["DT", "REGN", "total_deposits", "state_equity_pct"],
    rows := [{ regn := 1, dtY := 2020, dtS := 0, pct := some 60, ind := none },
             { regn := 1, dtY := 2024, dtS := 0, pct := some 60, ind := none }] }

/-- A table observed in a single year: the step grid degenerates to one
entry. -/
def sampleOneYear : Table :=
  { cols := ["DT", "REGN", "total_deposits", "state_equity_pct"],
    rows := [{ regn := 1, dtY := 2020, dtS := 0, pct := some 60, ind := some 5 }] }

instance : Inhabited SankeyOut := ⟨⟨[], [], [], [], [], ""⟩⟩

/-- The single link produced by the `sampleTable` run: the active flow
`(2020, State ≥50%) → (2024, State ≥50%)`, node indices 0 and 7. -/
def sampleLink : OutLink :=
  ⟨some 0, some 7, 6, 6 / UNIT_SCALE, 100, GREEN, 100, 5 / UNIT_SCALE⟩

/-- Weighted snapshots for the conservation witness: entity 1 active in
both grid years, entity 2 exits after 2020. -/
def c3snaps : List WSnap :=
  [⟨1, 2020, some 6, some 5, "State ≥50%"⟩,
   ⟨2, 2020, some 2, some 2, "State 0%"⟩,
   ⟨1, 2024, some 7, some 7, "State ≥50%"⟩]

/-- A link row whose step total is exactly `1e-9`: positive and not
below the cutoff, yet zeroed by the source's strict `> 1e-9` test. -/
def c5tiny : LinkRow := ⟨"State 0%", "State 0%", 1 / 10 ^ 9, 1, 0, 2020, 2024, false⟩

/-- Two link rows of one step with weights 6 and 2, for the share-sum
witness. -/
def c5rows : List LinkRow :=
  [⟨"State ≥50%", "State ≥50%", 6, 1, 5, 2020, 2024, false⟩,
   ⟨"State 0%", "Unknown", 2, 1, 2, 2020, 2024, false⟩]

/-- The January scenario: entity 1's percentage is recorded in the
first observation of 2021 and missing in the later one. -/
def janRows : List MRow :=
  [{ regn := 1, dtY := 2021, dtS := 0, pct := some 30, ind := some 4 },
   { regn := 1, dtY := 2021, dtS := 5, pct := none, ind := some 4 }]

/-- The error projection of an `Except` result. -/
def exceptErr (e : Except String SankeyOut) : Option String :=
  match e with
  | .error s => some s
  | .ok _ => none

-- --- Helper lemmas: getBucket region evaluation ---

theorem eps12_pos : (0 : ℚ) < eps12 := by norm_num [eps12]

theorem eps12_lt_one : eps12 < 1 := by norm_num [eps12]

theorem eps9_pos : (0 : ℚ) < eps9 := by norm_num [eps9]

theorem getBucket_zero (q : ℚ) (h : qabs q < eps12) :
    getBucket (some q) = "State 0%" := by
  simp only [getBucket]
  rw [if_pos h]

theorem getBucket_top (q : ℚ) (h1 : 50 - eps12 < q) (h2 : q < 1001/10 + eps12) :
    getBucket (some q) = "State ≥50%" := by
  have he := eps12_pos
  have he1 := eps12_lt_one
  have hz : ¬ qabs q < eps12 := by
    rw [qabs, abs_of_pos (by linarith)]; linarith
  simp only [getBucket]
  rw [if_neg hz, OWN_BUCKETS, List.find?_cons_of_pos]
  simp only [Bool.and_eq_true, decide_eq_true_eq]
  exact ⟨⟨by decide, h1⟩, h2⟩

theorem getBucket_20_50 (q : ℚ) (h1 : 20 ≤ q) (h2 : q ≤ 50 - eps12) :
    getBucket (some q) = "State 20–50%" := by
  have he := eps12_pos
  have he1 := eps12_lt_one
  have hz : ¬ qabs q < eps12 := by
    rw [qabs, abs_of_pos (by linarith)]; linarith
  simp only [getBucket]
  rw [if_neg hz, OWN_BUCKETS, List.find?_cons_of_neg, List.find?_cons_of_pos]
  · simp only [Bool.and_eq_true, decide_eq_true_eq]
    exact ⟨⟨by decide, by linarith⟩, by linarith⟩
  · simp only [Bool.and_eq_true, decide_eq_true_eq]
    rintro ⟨⟨-, hB⟩, -⟩
    linarith

theorem getBucket_10_20 (q : ℚ) (h1 : 10 ≤ q) (h2 : q ≤ 20 - eps12) :
    getBucket (some q) = "State 10–20%" := by
  have he := eps12_pos
  have he1 := eps12_lt_one
  have hz : ¬ qabs q < eps12 := by
    rw [qabs, abs_of_pos (by linarith)]; linarith
  simp only [getBucket]
  rw [if_neg hz, OWN_BUCKETS, List.find?_cons_of_neg, List.find?_cons_of_neg,
    List.find?_cons_of_pos]
  · simp only [Bool.and_eq_true, decide_eq_true_eq]
    exact ⟨⟨by decide, by linarith⟩, by linarith⟩
  · simp only [Bool.and_eq_true, decide_eq_true_eq]
    rintro ⟨⟨-, hB⟩, -⟩
    linarith
  · simp only [Bool.and_eq_true, decide_eq_true_eq]
    rintro ⟨⟨-, hB⟩, -⟩
    linarith

theorem getBucket_0_10 (q : ℚ) (h1 : eps12 ≤ q) (h2 : q ≤ 10 - eps12) :
    getBucket (some q) = "State 0–10%" := by
  have he := eps12_pos
  have he1 := eps12_lt_one
  have hz : ¬ qabs q < eps12 := by
    rw [qabs, abs_of_pos (by linarith)]; linarith
  simp only [getBucket]
  rw [if_neg hz, OWN_BUCKETS, List.find?_cons_of_neg, List.find?_cons_of_neg,
    List.find?_cons_of_neg, List.find?_cons_of_pos]
  · simp only [Bool.and_eq_true, decide_eq_true_eq]
    exact ⟨⟨by decide, by linarith⟩, by linarith⟩
  · simp only [Bool.and_eq_true, decide_eq_true_eq]
    rintro ⟨⟨-, hB⟩, -⟩
    linarith
  · simp only [Bool.and_eq_true, decide_eq_true_eq]
    rintro ⟨⟨-, hB⟩, -⟩
    linarith
  · simp only [Bool.and_eq_true, decide_eq_true_eq]
    rintro ⟨⟨-, hB⟩, -⟩
    linarith

theorem getBucket_above (q : ℚ) (h : 1001/10 + eps12 ≤ q) :
    getBucket (some q) = UNKNOWN_LABEL := by
  have he := eps12_pos
  have he1 := eps12_lt_one
  have hz : ¬ qabs q < eps12 := by
    rw [qabs, abs_of_pos (by linarith)]; linarith
  simp only [getBucket]
  rw [if_neg hz, OWN_BUCKETS, List.find?_cons_of_neg, List.find?_cons_of_neg,
    List.find?_cons_of_neg, List.find?_cons_of_neg, List.find?_cons_of_neg,
    List.find?_nil]
  · simp only [Bool.and_eq_true, decide_eq_true_eq]
    rintro ⟨⟨hA, -⟩, -⟩
    exact hA rfl
  · simp only [Bool.and_eq_true, decide_eq_true_eq]
    rintro ⟨⟨-, -⟩, hC⟩
    linarith
  · simp only [Bool.and_eq_true, decide_eq_true_eq]
    rintro ⟨⟨-, -⟩, hC⟩
    linarith
  · simp only [Bool.and_eq_true, decide_eq_true_eq]
    rintro ⟨⟨-, -⟩, hC⟩
    linarith
  · simp only [Bool.and_eq_true, decide_eq_true_eq]
    rintro ⟨⟨-, -⟩, hC⟩
    linarith

theorem getBucket_neg (q : ℚ) (h : q ≤ -eps12) :
    getBucket (some q) = UNKNOWN_LABEL := by
  have he := eps12_pos
  have he1 := eps12_lt_one
  have hz : ¬ qabs q < eps12 := by
    rw [qabs, abs_of_neg (by linarith)]; linarith
  simp only [getBucket]
  rw [if_neg hz, OWN_BUCKETS, List.find?_cons_of_neg, List.find?_cons_of_neg,
    List.find?_cons_of_neg, List.find?_cons_of_neg, List.find?_cons_of_neg,
    List.find?_nil]
  · simp only [Bool.and_eq_true, decide_eq_true_eq]
    rintro ⟨⟨hA, -⟩, -⟩
    exact hA rfl
  · simp only [Bool.and_eq_true, decide_eq_true_eq]
    rintro ⟨⟨-, hB⟩, -⟩
    linarith
  · simp only [Bool.and_eq_true, decide_eq_true_eq]
    rintro ⟨⟨-, hB⟩, -⟩
    linarith
  · simp only [Bool.and_eq_true, decide_eq_true_eq]
    rintro ⟨⟨-, hB⟩, -⟩
    linarith
  · simp only [Bool.and_eq_true, decide_eq_true_eq]
    rintro ⟨⟨-, hB⟩, -⟩
    linarith

/-- C2 (amended).  Bucket classification is a total, deterministic
function of the percentage value: a missing (or non-finite) value maps
to Unknown; `|p| < 1e-12` maps to the zero bucket before the range
buckets are consulted; exactly 50.0 and every `p` with
`50 - 1e-12 < p < 100.1 + 1e-12` map to the top bucket; exactly 20.0
maps to the 20-50 bucket and each non-zero range is inclusive at its
lower edge, capturing values up to `1e-12` below its upper edge (within
`1e-12` of the upper edge the next-higher bucket wins); values at or
above `100.1 + 1e-12`, and values at or below `-1e-12`, map to
Unknown. -/
theorem C2_bucket_total_deterministic :
    getBucket none = UNKNOWN_LABEL ∧
    (∀ q : ℚ, qabs q < eps12 → getBucket (some q) = "State 0%") ∧
    getBucket (some 50) = "State ≥50%" ∧
    (∀ q : ℚ, 50 - eps12 < q → q < 1001/10 + eps12 → getBucket (some q) = "State ≥50%") ∧
    getBucket (some 20) = "State 20–50%" ∧
    (∀ q : ℚ, 20 ≤ q → q ≤ 50 - eps12 → getBucket (some q) = "State 20–50%") ∧
    (∀ q : ℚ, 10 ≤ q → q ≤ 20 - eps12 → getBucket (some q) = "State 10–20%") ∧
    (∀ q : ℚ, eps12 ≤ q → q ≤ 10 - eps12 → getBucket (some q) = "State 0–10%") ∧
    (∀ q : ℚ, 1001/10 + eps12 ≤ q → getBucket (some q) = UNKNOWN_LABEL) ∧
    (∀ q : ℚ, q ≤ -eps12 → getBucket (some q) = UNKNOWN_LABEL) :=
  ⟨rfl, getBucket_zero, by decide, getBucket_top, by decide, getBucket_20_50,
    getBucket_10_20, getBucket_0_10, getBucket_above, getBucket_neg⟩

/-- C2 counterexample to the claim as stated: 200 ≥ 50 yet classifies as
Unknown (the top bucket is capped at 100.1 + 1e-12), and
`50 - 1e-13 ∈ [20, 50)` classifies as the top bucket, not 20-50 (the
upper edge is exclusive only up to the 1e-12 tolerance). -/
theorem C2_counterexample :
    (50 : ℚ) ≤ 200 ∧ getBucket (some 200) = "Unknown" ∧
    "Unknown" ≠ "State ≥50%" ∧
    (20 : ℚ) ≤ 50 - 1/10^13 ∧ (50 - 1/10^13 : ℚ) < 50 ∧
    getBucket (some (50 - 1/10^13)) = "State ≥50%" := by decide

/-- Witness: the amended C2 theorem applied at concrete points of each
region. -/
theorem C2_witness :
    getBucket (some (1/10^13)) = "State 0%" ∧
    getBucket (some 60) = "State ≥50%" ∧
    getBucket (some 30) = "State 20–50%" ∧
    getBucket (some 15) = "State 10–20%" ∧
    getBucket (some 5) = "State 0–10%" ∧
    getBucket (some 150) = UNKNOWN_LABEL ∧
    getBucket (some (-7)) = UNKNOWN_LABEL :=
  ⟨C2_bucket_total_deterministic.2.1 _ (by decide),
   C2_bucket_total_deterministic.2.2.2.1 60 (by norm_num [eps12]) (by norm_num [eps12]),
   C2_bucket_total_deterministic.2.2.2.2.2.1 30 (by norm_num) (by norm_num [eps12]),
   C2_bucket_total_deterministic.2.2.2.2.2.2.1 15 (by norm_num) (by norm_num [eps12]),
   C2_bucket_total_deterministic.2.2.2.2.2.2.2.1 5 (by norm_num [eps12]) (by norm_num [eps12]),
   C2_bucket_total_deterministic.2.2.2.2.2.2.2.2.1 150 (by norm_num [eps12]),
   C2_bucket_total_deterministic.2.2.2.2.2.2.2.2.2 (-7) (by norm_num [eps12])⟩

-- --- Helper lemmas: fields of aggregated link rows ---

theorem mem_stepActiveLinks_fields {y0 y1 : Int} {s0 s1 : List WSnap} {lr : LinkRow}
    (h : lr ∈ stepActiveLinks y0 y1 s0 s1) :
    lr.isExit = false ∧ lr.levelFrom = y0 ∧ lr.levelTo = y1 := by
  simp only [stepActiveLinks, List.mem_map] at h
  obtain ⟨c, -, rfl⟩ := h
  exact ⟨rfl, rfl, rfl⟩

theorem mem_stepExitLinks_fields {y0 : Int} {s0 s1 : List WSnap} {lr : LinkRow}
    (h : lr ∈ stepExitLinks y0 s0 s1) :
    lr.isExit = true ∧ lr.levelFrom = y0 ∧ lr.levelTo = y0 ∧ lr.catTo = EXIT_LABEL := by
  simp only [stepExitLinks, List.mem_map] at h
  obtain ⟨c, -, rfl⟩ := h
  exact ⟨rfl, rfl, rfl, rfl⟩

/-- C4: every exit edge produced by the flow aggregation has
`year_from = year_to` and `bucket_to = Exit`: exit flows of the
consecutive pair `(y0, y1)` are recorded with both endpoint years equal
to `y0` and target bucket fixed to the Exit label, for every snapshot
table and every step grid. -/
theorem C4_exit_edge_invariant (snaps : List WSnap) (years : List Int) :
    ∀ lr ∈ linkRowsOf snaps years, lr.isExit = true →
      lr.levelFrom = lr.levelTo ∧ lr.catTo = EXIT_LABEL := by
  intro lr h hx
  simp only [linkRowsOf, List.mem_flatMap, List.mem_append] at h
  obtain ⟨p, -, h | h⟩ := h
  · rw [(mem_stepActiveLinks_fields h).1] at hx
    cases hx
  · obtain ⟨-, hf, ht, hc⟩ := mem_stepExitLinks_fields h
    exact ⟨hf.trans ht.symm, hc⟩

/-- Witness for C4: a table with one entity present in 2020 and gone by
2024 produces an exit edge, on which the theorem's conclusion holds. -/
theorem C4_witness :
    (⟨"State 0%", EXIT_LABEL, 1, 1, 1, 2020, 2020, true⟩ : LinkRow) ∈
        linkRowsOf [⟨1, 2020, some 1, some 1, "State 0%"⟩, ⟨2, 2020, some 1, some 1, "State 0%"⟩,
          ⟨2, 2024, some 1, some 1, "State 0%"⟩] [2020, 2024] ∧
      (⟨"State 0%", EXIT_LABEL, 1, 1, 1, 2020, 2020, true⟩ : LinkRow).levelFrom =
        (⟨"State 0%", EXIT_LABEL, 1, 1, 1, 2020, 2020, true⟩ : LinkRow).levelTo ∧
      (⟨"State 0%", EXIT_LABEL, 1, 1, 1, 2020, 2020, true⟩ : LinkRow).catTo = EXIT_LABEL := by
  refine ⟨by decide, ?_⟩
  exact C4_exit_edge_invariant
    [⟨1, 2020, some 1, some 1, "State 0%"⟩, ⟨2, 2020, some 1, some 1, "State 0%"⟩,
      ⟨2, 2024, some 1, some 1, "State 0%"⟩] [2020, 2024] _ (by decide) (by decide)

-- --- Helper lemmas: successful runs of the pipeline ---

theorem toOption_eq_some {p : Except String SankeyOut} {o : SankeyOut}
    (h : p.toOption = some o) : p = .ok o := by
  cases p with
  | error e => simp [Except.toOption] at h
  | ok a => simp [Except.toOption] at h; rw [h]

theorem processParquetData_ok_fields {logFn : ℚ → ℚ} {t : Table} {out : SankeyOut}
    (h : processParquetData logFn t = .ok out) :
    out.nodes = (nodePairs (yearsOf (snapStage logFn t.rows))).map nodeLabel ∧
    out.node_colors = (nodePairs (yearsOf (snapStage logFn t.rows))).map (fun p => nodeColorOf p.2) ∧
    out.xs = xsOf (yearsOf (snapStage logFn t.rows)) ∧
    out.ys = ysOf (yearsOf (snapStage logFn t.rows))
      (mkLinks (yearsOf (snapStage logFn t.rows))
        (linkRowsOf (snapStage logFn t.rows) (yearsOf (snapStage logFn t.rows)))) ∧
    out.links = mkLinks (yearsOf (snapStage logFn t.rows))
      (linkRowsOf (snapStage logFn t.rows) (yearsOf (snapStage logFn t.rows))) := by
  unfold processParquetData at h
  split at h
  · cases h
  · split at h
    · cases h
    · split at h
      · cases h
      · injection h with h
        subst h
        simp [mkOut]

theorem processParquetData_ok_iff {logFn : ℚ → ℚ} {t : Table} :
    (∃ out, processParquetData logFn t = .ok out) ↔
      missingCol t = none ∧
      2 ≤ (yearsOf (snapStage logFn t.rows)).length ∧
      linkRowsOf (snapStage logFn t.rows) (yearsOf (snapStage logFn t.rows)) ≠ [] := by
  constructor
  · rintro ⟨out, h⟩
    unfold processParquetData at h
    split at h
    · cases h
    · split at h
      · cases h
      · split at h
        · cases h
        · have hl0 : ¬ (linkRowsOf (snapStage logFn t.rows)
              (yearsOf (snapStage logFn t.rows))).length = 0 := by assumption
          refine ⟨by assumption, by omega, fun hnil => hl0 (by rw [hnil]; rfl)⟩
  · rintro ⟨hm, hy, hl⟩
    refine ⟨mkOut (snapStage logFn t.rows) (yearsOf (snapStage logFn t.rows)), ?_⟩
    unfold processParquetData
    rw [hm]
    rw [if_neg (by omega), if_neg (by simpa using hl)]

/-- C1 (amended): on every successful run the returned node array
enumerates the label of *every* `(grid year, category)` combination —
nodes are pre-registered wholesale and are *not* filtered by touching
weight, so untouched nodes remain in the output arrays. -/
theorem C1_all_nodes_registered (logFn : ℚ → ℚ) (t : Table) (out : SankeyOut)
    (h : processParquetData logFn t = .ok out) :
    out.nodes = (nodePairs (yearsOf (snapStage logFn t.rows))).map nodeLabel ∧
    ∀ y ∈ yearsOf (snapStage logFn t.rows), ∀ c ∈ CAT_ORDER,
      nodeLabel (y, c) ∈ out.nodes := by
  have hn := (processParquetData_ok_fields h).1
  refine ⟨hn, ?_⟩
  intro y hy c hc
  rw [hn]
  refine List.mem_map_of_mem _ ?_
  simp only [nodePairs, List.mem_flatMap]
  exact ⟨y, hy, List.mem_map_of_mem _ hc⟩

/-- C1 counterexample to the claim as stated: a successful run on
`sampleTable` returns 14 nodes (2 grid years × 7 categories) including
`"2024: Exit"` at index 13, while its single link touches only indices
0 and 7 — a node with zero touching weight appears in the returned
`nodes`/`node_colors`/`xs`/`ys` arrays. -/
theorem C1_counterexample :
    (processParquetData sampleLog sampleTable).toOption.map (fun o =>
      decide (o.nodes.length = 14) && decide (o.nodes.getD 13 "" = "2024: Exit") &&
      o.links.all (fun l => l.source != some 13 && l.target != some 13) &&
      decide (o.links.length = 1) &&
      decide (o.node_colors.length = 14) && decide (o.xs.length = 14) &&
      decide (o.ys.length = 14)) = some true := by decide

/-- Witness: the amended C1 theorem applied to the `sampleTable` run
shows the untouched `"2024: Exit"` node is in the output. -/
theorem C1_witness :
    nodeLabel (2024, EXIT_LABEL) ∈
      ((processParquetData sampleLog sampleTable).toOption.getD default).nodes :=
  (C1_all_nodes_registered sampleLog sampleTable _
    (toOption_eq_some (by decide))).2 2024 (by decide) EXIT_LABEL (by decide)

-- --- Helper lemmas: dedupF, lookupIdx, bucket membership ---

theorem mem_dedupF_aux {α : Type} [DecidableEq α] (l : List α) :
    ∀ (acc : List α) (a : α),
      (a ∈ l.foldl (fun acc k => if k ∈ acc then acc else acc ++ [k]) acc) ↔
        a ∈ acc ∨ a ∈ l := by
  induction l with
  | nil => simp
  | cons x xs ih =>
    intro acc a
    simp only [List.foldl_cons, ih, List.mem_cons]
    by_cases hx : x ∈ acc
    · rw [if_pos hx]
      constructor
      · rintro (h | h)
        · exact Or.inl h
        · exact Or.inr (Or.inr h)
      · rintro (h | rfl | h)
        · exact Or.inl h
        · exact Or.inl hx
        · exact Or.inr h
    · rw [if_neg hx]
      simp only [List.mem_append, List.mem_singleton]
      constructor
      · rintro ((h | rfl) | h)
        · exact Or.inl h
        · exact Or.inr (Or.inl rfl)
        · exact Or.inr (Or.inr h)
      · rintro (h | rfl | h)
        · exact Or.inl (Or.inl h)
        · exact Or.inl (Or.inr rfl)
        · exact Or.inr h

theorem mem_dedupF {α : Type} [DecidableEq α] {l : List α} {a : α} :
    a ∈ dedupF l ↔ a ∈ l := by
  unfold dedupF
  rw [mem_dedupF_aux]
  simp

theorem nodup_dedupF_aux {α : Type} [DecidableEq α] (l : List α) :
    ∀ acc : List α, acc.Nodup →
      (l.foldl (fun acc k => if k ∈ acc then acc else acc ++ [k]) acc).Nodup := by
  induction l with
  | nil => exact fun acc h => h
  | cons x xs ih =>
    intro acc hacc
    simp only [List.foldl_cons]
    by_cases hx : x ∈ acc
    · rw [if_pos hx]; exact ih acc hacc
    · rw [if_neg hx]
      refine ih _ ?_
      rw [← List.concat_eq_append]
      exact List.Nodup.concat hx hacc

theorem nodup_dedupF {α : Type} [DecidableEq α] (l : List α) : (dedupF l).Nodup :=
  nodup_dedupF_aux l [] List.nodup_nil

theorem lookupIdx_mem {α : Type} [DecidableEq α] {l : List α} {a : α} (h : a ∈ l) :
    ∃ i, lookupIdx l a = some i ∧ i < l.length := by
  induction l with
  | nil => cases h
  | cons x xs ih =>
    by_cases hx : x = a
    · exact ⟨0, by simp [lookupIdx, hx], by simp⟩
    · have h2 : a ∈ xs := by
        rcases List.mem_cons.mp h with rfl | h2
        · exact absurd rfl hx
        · exact h2
      obtain ⟨i, hi, hlt⟩ := ih h2
      refine ⟨i + 1, ?_, by simpa using Nat.succ_lt_succ hlt⟩
      simp [lookupIdx, hx, hi]

theorem getBucket_mem (p : Option ℚ) : getBucket p ∈ CAT_ORDER := by
  cases p with
  | none => decide
  | some q =>
    by_cases hz : qabs q < eps12
    · simp only [getBucket, if_pos hz]
      decide
    · simp only [getBucket, if_neg hz]
      cases hf : OWN_BUCKETS.find? (fun b =>
          decide (b.name ≠ "State 0%") && decide (b.lo - eps12 < q) &&
            decide (q < b.hi + eps12)) with
      | none => simp only [hf]; decide
      | some b =>
        simp only [hf]
        have hb := List.mem_of_find?_eq_some hf
        unfold CAT_ORDER
        exact List.mem_append_left _ (List.mem_map_of_mem _ hb)

theorem snapStage_bucket_mem (logFn : ℚ → ℚ) (rows : List MRow) :
    ∀ s ∈ snapStage logFn rows, s.bucket ∈ CAT_ORDER := by
  intro s hs
  simp only [snapStage, List.mem_map] at hs
  obtain ⟨mw, -, rfl⟩ := hs
  exact getBucket_mem _

-- --- Helper lemmas: categories and levels of aggregated link rows ---

theorem mem_joinRows_cats {s0 s1 : List WSnap} {j : JoinRow} (h : j ∈ joinRows s0 s1) :
    (∃ r ∈ s0, j.catFrom = r.bucket) ∧ (∃ r1 ∈ s1, j.catTo = r1.bucket) := by
  simp only [joinRows, List.mem_flatMap, List.mem_map, List.mem_filter] at h
  obtain ⟨r, hr, r1, ⟨hr1, -⟩, rfl⟩ := h
  exact ⟨⟨r, hr, rfl⟩, ⟨r1, hr1, rfl⟩⟩

theorem mem_stepActiveLinks_cats {y0 y1 : Int} {s0 s1 : List WSnap} {lr : LinkRow}
    (h : lr ∈ stepActiveLinks y0 y1 s0 s1) :
    (∃ r ∈ s0, lr.catFrom = r.bucket) ∧ (∃ r1 ∈ s1, lr.catTo = r1.bucket) := by
  simp only [stepActiveLinks, List.mem_map] at h
  obtain ⟨k, hk, rfl⟩ := h
  rw [mem_dedupF] at hk
  simp only [List.mem_map] at hk
  obtain ⟨j, hj, rfl⟩ := hk
  exact mem_joinRows_cats (List.mem_filter.mp hj).1

theorem mem_stepExitLinks_cat {y0 : Int} {s0 s1 : List WSnap} {lr : LinkRow}
    (h : lr ∈ stepExitLinks y0 s0 s1) :
    ∃ r ∈ s0, lr.catFrom = r.bucket := by
  simp only [stepExitLinks, List.mem_map] at h
  obtain ⟨c, hc, rfl⟩ := h
  rw [mem_dedupF] at hc
  simp only [List.mem_map] at hc
  obtain ⟨r, hr, rfl⟩ := hc
  exact ⟨r, (List.mem_filter.mp hr).1, rfl⟩

theorem mem_snapsAt {snaps : List WSnap} {y : Int} {r : WSnap}
    (h : r ∈ snapsAt snaps y) : r ∈ snaps :=
  (List.mem_filter.mp h).1

theorem linkRowsOf_fields {snaps : List WSnap} {years : List Int}
    (hb : ∀ s ∈ snaps, s.bucket ∈ CAT_ORDER) :
    ∀ lr ∈ linkRowsOf snaps years,
      lr.levelFrom ∈ years ∧ lr.levelTo ∈ years ∧
      lr.catFrom ∈ CAT_ORDER ∧ lr.catTo ∈ CAT_ORDER := by
  intro lr h
  simp only [linkRowsOf, List.mem_flatMap, List.mem_append] at h
  obtain ⟨p, hp, h | h⟩ := h
  · have hy := List.of_mem_zip hp
    obtain ⟨-, hf, ht⟩ := mem_stepActiveLinks_fields h
    obtain ⟨⟨r, hr, hcf⟩, ⟨r1, hr1, hct⟩⟩ := mem_stepActiveLinks_cats h
    refine ⟨hf ▸ hy.1, ht ▸ List.tail_subset _ hy.2, ?_, ?_⟩
    · rw [hcf]; exact hb r (mem_snapsAt hr)
    · rw [hct]; exact hb r1 (mem_snapsAt hr1)
  · have hy := List.of_mem_zip hp
    obtain ⟨-, hf, ht, hct⟩ := mem_stepExitLinks_fields h
    obtain ⟨r, hr, hcf⟩ := mem_stepExitLinks_cat h
    refine ⟨hf ▸ hy.1, ht ▸ hy.1, ?_, ?_⟩
    · rw [hcf]; exact hb r (mem_snapsAt hr)
    · rw [hct]; decide

-- --- Helper lemmas: lengths of the output arrays ---

theorem sum_map_const_nat {α : Type} (l : List α) (c : ℕ) :
    (l.map (fun _ => c)).sum = l.length * c := by
  induction l with
  | nil => simp
  | cons x xs ih => simp [ih, Nat.succ_mul]; omega

theorem length_flatMap_const {α β : Type} (l : List α) (f : α → List β) (c : ℕ)
    (h : ∀ a ∈ l, (f a).length = c) : (l.flatMap f).length = l.length * c := by
  induction l with
  | nil => simp
  | cons x xs ih =>
    rw [List.flatMap_cons, List.length_append, h x (List.mem_cons_self x xs),
      ih (fun a ha => h a (List.mem_cons_of_mem x ha)), List.length_cons, Nat.succ_mul]
    omega

theorem nodePairs_length (years : List Int) :
    (nodePairs years).length = years.length * CAT_ORDER.length := by
  unfold nodePairs
  exact length_flatMap_const years _ _ (fun a _ => List.length_map _ _)

theorem colYsGo_length (total cur : ℚ) (wts : List ℚ) :
    (colYsGo total cur wts).length = wts.length := by
  induction wts generalizing cur with
  | nil => rfl
  | cons w rest ih => simp [colYsGo, ih]

theorem colYs_length (wts : List ℚ) : (colYs wts).length = wts.length := by
  unfold colYs
  split
  · exact colYsGo_length _ _ _
  · simp only [List.length_map, List.length_range]

theorem ysOf_length (years : List Int) (links : List OutLink) :
    (ysOf years links).length = years.length * CAT_ORDER.length := by
  unfold ysOf
  rw [length_flatMap_const (List.range years.length) _ CAT_ORDER.length
    (fun j _ => by rw [colYs_length, List.length_map, List.length_range]),
    List.length_range]

/-- C10: on every successful run, every emitted link's source and
target indices are defined and strictly below the length of the node
array, and the `node_colors`, `xs`, `ys` arrays are parallel to
`nodes` — because a node is pre-registered for every combination of
grid year and category before any link is indexed. -/
theorem C10_link_indices_valid (logFn : ℚ → ℚ) (t : Table) (out : SankeyOut)
    (h : processParquetData logFn t = .ok out) :
    (∀ l ∈ out.links, l.source.isSome = true ∧ l.target.isSome = true ∧
      l.source.getD 0 < out.nodes.length ∧ l.target.getD 0 < out.nodes.length) ∧
    out.node_colors.length = out.nodes.length ∧
    out.xs.length = out.nodes.length ∧
    out.ys.length = out.nodes.length := by
  obtain ⟨hn, hc, hx, hy, hl⟩ := processParquetData_ok_fields h
  refine ⟨?_, ?_, ?_, ?_⟩
  · intro l hlmem
    rw [hl] at hlmem
    simp only [mkLinks, List.mem_map] at hlmem
    obtain ⟨r, hr, rfl⟩ := hlmem
    obtain ⟨hyf, hyt, hcf, hct⟩ :=
      linkRowsOf_fields (snapStage_bucket_mem logFn t.rows) r hr
    have hsrc : (r.levelFrom, r.catFrom) ∈ nodePairs (yearsOf (snapStage logFn t.rows)) := by
      simp only [nodePairs, List.mem_flatMap, List.mem_map]
      exact ⟨r.levelFrom, hyf, r.catFrom, hcf, rfl⟩
    have htgt : (r.levelTo, r.catTo) ∈ nodePairs (yearsOf (snapStage logFn t.rows)) := by
      simp only [nodePairs, List.mem_flatMap, List.mem_map]
      exact ⟨r.levelTo, hyt, r.catTo, hct, rfl⟩
    obtain ⟨i, hi, hilt⟩ := lookupIdx_mem hsrc
    obtain ⟨j, hj, hjlt⟩ := lookupIdx_mem htgt
    rw [hn, List.length_map]
    constructor
    · simp [hi]
    constructor
    · simp [hj]
    constructor
    · simp only [hi, Option.getD_some]
      exact hilt
    · simp only [hj, Option.getD_some]
      exact hjlt
  · rw [hn, hc, List.length_map, List.length_map]
  · rw [hn, hx, List.length_map]
    simp [xsOf]
  · rw [hn, hy, ysOf_length, List.length_map, nodePairs_length]

/-- Witness: the C10 theorem applied to the single link of the
`sampleTable` run. -/
theorem C10_witness :
    sampleLink.source.isSome = true ∧ sampleLink.target.isSome = true ∧
    sampleLink.source.getD 0 <
      ((processParquetData sampleLog sampleTable).toOption.getD default).nodes.length ∧
    sampleLink.target.getD 0 <
      ((processParquetData sampleLog sampleTable).toOption.getD default).nodes.length :=
  (C10_link_indices_valid sampleLog sampleTable _ (toOption_eq_some (by decide))).1
    sampleLink (by decide)

-- --- Helper lemmas: sums over optional columns, filters and groups ---

theorem optSum_eq (l : List (Option ℚ)) :
    optSum l = (l.map (fun o => o.getD 0)).sum := by
  induction l with
  | nil => rfl
  | cons o os ih =>
    cases o with
    | none => simpa [optSum, List.filterMap_cons] using ih
    | some v => simpa [optSum, List.filterMap_cons] using congrArg (v + ·) ih

theorem sum_split {α : Type} (l : List α) (p : α → Bool) (f : α → ℚ) :
    ((l.filter p).map f).sum + ((l.filter (fun a => !(p a))).map f).sum
      = (l.map f).sum := by
  induction l with
  | nil => simp
  | cons x xs ih =>
    by_cases hx : p x
    · simp only [List.filter_cons, hx, Bool.not_true, if_pos, List.map_cons,
        List.sum_cons, if_neg Bool.false_ne_true]
      linarith [ih]
    · simp only [List.filter_cons, hx, List.map_cons, List.sum_cons]
      simp only [Bool.not_eq_true] at hx
      simp only [hx, Bool.not_false, if_pos, if_neg Bool.false_ne_true,
        List.map_cons, List.sum_cons]
      linarith [ih]

theorem sum_if_eq_sum_filter {α : Type} (l : List α) (p : α → Bool) (f : α → ℚ) :
    (l.map (fun a => if p a then f a else 0)).sum = ((l.filter p).map f).sum := by
  induction l with
  | nil => rfl
  | cons x xs ih =>
    by_cases hx : p x <;>
      simp [List.filter_cons, hx, ih]

theorem sum_flatMapQ {α : Type} (l : List α) (g : α → List ℚ) :
    (l.flatMap g).sum = (l.map (fun a => (g a).sum)).sum := by
  induction l with
  | nil => rfl
  | cons x xs ih => simp [List.flatMap_cons, ih]

theorem sum_groups_eq {R K : Type} [DecidableEq K] (key : R → K) (f : R → ℚ) :
    ∀ (keys : List K) (rows : List R), keys.Nodup → (∀ r ∈ rows, key r ∈ keys) →
      (keys.map (fun k =>
        ((rows.filter (fun r => decide (key r = k))).map f).sum)).sum
        = (rows.map f).sum := by
  intro keys
  induction keys with
  | nil =>
    intro rows _ hcov
    have hnil : rows = [] := by
      cases rows with
      | nil => rfl
      | cons r rs => exact absurd (hcov r (List.mem_cons_self r rs)) (List.not_mem_nil _)
    subst hnil; rfl
  | cons k ks ih =>
    intro rows hnd hcov
    rw [List.map_cons, List.sum_cons]
    have hks : ∀ k' ∈ ks, rows.filter (fun r => decide (key r = k')) =
        (rows.filter (fun r => !(decide (key r = k)))).filter
          (fun r => decide (key r = k')) := by
      intro k' hk'
      have hne : k' ≠ k := fun h => (List.nodup_cons.mp hnd).1 (h ▸ hk')
      rw [List.filter_filter]
      refine (List.filter_congr ?_).symm
      intro r _
      by_cases h : key r = k'
      · simp [h, hne]
      · simp [h]
    have hcov2 : ∀ r ∈ rows.filter (fun r => !(decide (key r = k))), key r ∈ ks := by
      intro r hr
      obtain ⟨hrm, hrp⟩ := List.mem_filter.mp hr
      rcases List.mem_cons.mp (hcov r hrm) with h | h
      · simp [h] at hrp
      · exact h
    have ih2 := ih (rows.filter (fun r => !(decide (key r = k))))
      (List.nodup_cons.mp hnd).2 hcov2
    have hmap : ks.map (fun k' =>
        ((rows.filter (fun r => decide (key r = k'))).map f).sum) =
        ks.map (fun k' =>
          (((rows.filter (fun r => !(decide (key r = k)))).filter
            (fun r => decide (key r = k'))).map f).sum) :=
      List.map_congr_left (fun k' hk' => by rw [hks k' hk'])
    rw [hmap, ih2, ← sum_split rows (fun r => decide (key r = k)) f]

theorem pair_pred (a b : String) (k : String × String) :
    (decide (a = k.1) && decide (b = k.2)) = decide ((a, b) = k) := by
  by_cases h1 : a = k.1 <;> by_cases h2 : b = k.2 <;>
    simp [h1, h2, Prod.ext_iff]

theorem stepActiveLinks_weight_sum (y0 y1 : Int) (s0 s1 : List WSnap) :
    ((stepActiveLinks y0 y1 s0 s1).map (·.weight)).sum =
      ((bothRows s0 s1).map (fun j => j.w.getD 0)).sum := by
  unfold stepActiveLinks
  rw [List.map_map]
  have h2 : ∀ k ∈ dedupF ((bothRows s0 s1).map (fun j => (j.catFrom, j.catTo))),
      ((fun lr : LinkRow => lr.weight) ∘ (fun k =>
        ({ catFrom := k.1, catTo := k.2,
           weight := optSum (((bothRows s0 s1).filter (fun j =>
             decide (j.catFrom = k.1) && decide (j.catTo = k.2))).map (·.w)),
           cnt := ((bothRows s0 s1).filter (fun j =>
             decide (j.catFrom = k.1) && decide (j.catTo = k.2))).length,
           rawSum := optSum (((bothRows s0 s1).filter (fun j =>
             decide (j.catFrom = k.1) && decide (j.catTo = k.2))).map (·.raw)),
           levelFrom := y0, levelTo := y1, isExit := false } : LinkRow))) k =
      (((bothRows s0 s1).filter (fun j =>
        decide ((j.catFrom, j.catTo) = k))).map (fun j => j.w.getD 0)).sum := by
    intro k _
    show optSum (((bothRows s0 s1).filter (fun j =>
      decide (j.catFrom = k.1) && decide (j.catTo = k.2))).map (·.w)) = _
    rw [optSum_eq, List.map_map,
      List.filter_congr (fun j _ => pair_pred j.catFrom j.catTo k)]
    rfl
  rw [List.map_congr_left h2]
  exact sum_groups_eq (fun j : JoinRow => (j.catFrom, j.catTo)) _ _ _ (nodup_dedupF _)
    (fun j hj => mem_dedupF.mpr (List.mem_map_of_mem _ hj))

theorem stepExitLinks_weight_sum (y0 : Int) (s0 s1 : List WSnap) :
    ((stepExitLinks y0 s0 s1).map (·.weight)).sum =
      ((goneRows s0 s1).map (fun r => r.w.getD 0)).sum := by
  unfold stepExitLinks
  rw [List.map_map]
  have h2 : ∀ c ∈ dedupF ((goneRows s0 s1).map (·.bucket)),
      ((fun lr : LinkRow => lr.weight) ∘ (fun c =>
        ({ catFrom := c, catTo := EXIT_LABEL,
           weight := optSum (((goneRows s0 s1).filter (fun r =>
             decide (r.bucket = c))).map (·.w)),
           cnt := ((goneRows s0 s1).filter (fun r => decide (r.bucket = c))).length,
           rawSum := optSum (((goneRows s0 s1).filter (fun r =>
             decide (r.bucket = c))).map (·.raw)),
           levelFrom := y0, levelTo := y0, isExit := true } : LinkRow))) c =
      (((goneRows s0 s1).filter (fun r =>
        decide (r.bucket = c))).map (fun r => r.w.getD 0)).sum := by
    intro c _
    show optSum (((goneRows s0 s1).filter (fun r => decide (r.bucket = c))).map (·.w)) = _
    rw [optSum_eq, List.map_map]
    rfl
  rw [List.map_congr_left h2]
  exact sum_groups_eq (fun r : WSnap => r.bucket) _ _ _ (nodup_dedupF _)
    (fun r hr => mem_dedupF.mpr (List.mem_map_of_mem _ hr))

theorem filter_regn_length (s1 : List WSnap) (hnd : (s1.map (·.regn)).Nodup) (x : Int) :
    (s1.filter (fun r1 => decide (r1.regn = x))).length =
      if s1.any (fun r1 => decide (r1.regn = x)) then 1 else 0 := by
  induction s1 with
  | nil => rfl
  | cons r1 rs ih =>
    rw [List.map_cons, List.nodup_cons] at hnd
    by_cases h : r1.regn = x
    · have hnil : rs.filter (fun r2 => decide (r2.regn = x)) = [] := by
        rw [List.filter_eq_nil_iff]
        intro a ha hpa
        apply hnd.1
        rw [h, ← of_decide_eq_true hpa]
        exact List.mem_map_of_mem _ ha
      simp [List.filter_cons, List.any_cons, h, hnil]
    · simp [List.filter_cons, List.any_cons, h, ih hnd.2]

theorem bothRows_sum (s0 s1 : List WSnap) (hnd : (s1.map (·.regn)).Nodup)
    (hwr : ∀ r ∈ s0, r.w.isSome = r.raw.isSome) :
    ((bothRows s0 s1).map (fun j => j.w.getD 0)).sum =
      ((s0.filter (fun r => s1.any (fun r1 => decide (r1.regn = r.regn)))).map
        (fun r => r.w.getD 0)).sum := by
  unfold bothRows joinRows
  rw [List.filter_flatMap, List.map_flatMap, sum_flatMapQ,
    ← sum_if_eq_sum_filter]
  refine congrArg List.sum (List.map_congr_left ?_)
  intro r hr
  rw [List.filter_map]
  have hconst : ((s1.filter (fun r1 => decide (r1.regn = r.regn))).filter
      ((fun j : JoinRow => j.w.isSome && j.raw.isSome) ∘ (fun r1 =>
        ({ regn := r.regn, catFrom := r.bucket, w := r.w, raw := r.raw,
           catTo := r1.bucket } : JoinRow)))) =
      (s1.filter (fun r1 => decide (r1.regn = r.regn))).filter
        (fun _ => r.w.isSome && r.raw.isSome) :=
    List.filter_congr (fun r1 _ => rfl)
  rw [hconst]
  cases hw : r.w with
  | none =>
    have hraw : r.raw.isSome = false := by rw [← hwr r hr, hw]; rfl
    simp [hw, hraw, List.filter_false]
  | some v =>
    have hraw : r.raw.isSome = true := by rw [← hwr r hr, hw]; rfl
    simp only [Option.isSome_some, hraw, Bool.and_self, List.filter_true,
      List.map_map]
    have hc : ((fun j : JoinRow => j.w.getD 0) ∘ (fun (r1 : WSnap) =>
        ({ regn := r.regn, catFrom := r.bucket, w := some v, raw := r.raw,
           catTo := r1.bucket } : JoinRow))) = (fun _ => v) := rfl
    rw [hc, List.map_const', List.sum_replicate, filter_regn_length s1 hnd, nsmul_eq_mul]
    by_cases hp : s1.any (fun r1 => decide (r1.regn = r.regn))
    · simp [hp]
    · simp [hp]

/-- C3: for every consecutive pair `(y0, y1)` of grid years, the sum of
the weights of the active edges aggregated for that pair plus the
weights of its exit edges equals the total transformed weight of the
entities present in `y0`'s weighted snapshots (each of which carries a
bucket), up to entities whose weight is undefined: the `optSum` on the
right skips missing weights, exactly the rows `dropna()` removes from
the active join.  The snapshot table has one row per `(entity, year)`,
whence the `Nodup` hypothesis; `w` and `raw` are both derived from the
same merged indicator, whence the definedness hypothesis. -/
theorem C3_step_weight_conservation (snaps : List WSnap) (years : List Int)
    (y0 y1 : Int) (hpair : (y0, y1) ∈ years.zip years.tail)
    (hnd : ((snapsAt snaps y1).map (·.regn)).Nodup)
    (hwr : ∀ r ∈ snapsAt snaps y0, r.w.isSome = r.raw.isSome) :
    ((stepActiveLinks y0 y1 (snapsAt snaps y0) (snapsAt snaps y1)).map (·.weight)).sum +
      ((stepExitLinks y0 (snapsAt snaps y0) (snapsAt snaps y1)).map (·.weight)).sum =
      optSum ((snapsAt snaps y0).map (·.w)) := by
  rw [stepActiveLinks_weight_sum, stepExitLinks_weight_sum,
    bothRows_sum _ _ hnd hwr]
  unfold goneRows
  rw [optSum_eq, List.map_map]
  have hcomp : ((fun o : Option ℚ => o.getD 0) ∘ (fun r : WSnap => r.w)) =
      fun r : WSnap => r.w.getD 0 := rfl
  rw [hcomp]
  exact sum_split (snapsAt snaps y0)
    (fun r => (snapsAt snaps y1).any (fun r1 => decide (r1.regn = r.regn)))
    (fun r => r.w.getD 0)

/-- Witness: conservation on a concrete table — active weight 6 plus
exit weight 2 equals the total defined weight 8 of the 2020 column. -/
theorem C3_witness :
    ((stepActiveLinks 2020 2024 (snapsAt c3snaps 2020) (snapsAt c3snaps 2024)).map
      (·.weight)).sum +
      ((stepExitLinks 2020 (snapsAt c3snaps 2020) (snapsAt c3snaps 2024)).map
        (·.weight)).sum =
      optSum ((snapsAt c3snaps 2020).map (·.w)) :=
  C3_step_weight_conservation c3snaps [2020, 2024] 2020 2024 (by decide)
    (by decide) (by decide)

-- --- Helper lemmas: shares ---

theorem sum_map_mul_right {α : Type} (l : List α) (f : α → ℚ) (c : ℚ) :
    (l.map (fun a => f a * c)).sum = (l.map f).sum * c := by
  induction l with
  | nil => simp
  | cons x xs ih => simp [ih, add_mul]

theorem stepTotal_of_mem {lrs : List LinkRow} {r : LinkRow} {f t : Int}
    (hf : r.levelFrom = f) (ht : r.levelTo = t) :
    stepTotal lrs r =
      ((lrs.filter (fun r2 => decide (r2.levelFrom = f) &&
        decide (r2.levelTo = t))).map (·.weight)).sum := by
  unfold stepTotal
  rw [hf, ht]

/-- C5 (amended): each edge's share is `weight / step_total * 100` when
the step total strictly exceeds `1e-9` and `0` otherwise (the source
zeroes the share at totals *at or below* `1e-9`, not only below it);
consequently the shares of the edges of a fixed `(year_from, year_to)`
sum to exactly 100 whenever the step total exceeds `1e-9` (not merely
whenever it is positive). -/
theorem C5_share_sums (lrs : List LinkRow) :
    (∀ r ∈ lrs,
      (eps9 < stepTotal lrs r → shareOf lrs r = r.weight / stepTotal lrs r * 100) ∧
      (stepTotal lrs r ≤ eps9 → shareOf lrs r = 0)) ∧
    (∀ f t : Int,
      eps9 < ((lrs.filter (fun r => decide (r.levelFrom = f) &&
          decide (r.levelTo = t))).map (·.weight)).sum →
        ((lrs.filter (fun r => decide (r.levelFrom = f) &&
          decide (r.levelTo = t))).map (shareOf lrs)).sum = 100) := by
  constructor
  · intro r _
    constructor
    · intro hT
      unfold shareOf
      rw [if_pos hT]
    · intro hT
      unfold shareOf
      rw [if_neg (not_lt.mpr hT)]
  · intro f t hT
    have hT0 : ((lrs.filter (fun r => decide (r.levelFrom = f) &&
        decide (r.levelTo = t))).map (·.weight)).sum ≠ 0 := by
      have := eps9_pos
      linarith
    have hmap : (lrs.filter (fun r => decide (r.levelFrom = f) &&
        decide (r.levelTo = t))).map (shareOf lrs) =
        (lrs.filter (fun r => decide (r.levelFrom = f) &&
          decide (r.levelTo = t))).map (fun r => r.weight *
            (100 / ((lrs.filter (fun r2 => decide (r2.levelFrom = f) &&
              decide (r2.levelTo = t))).map (·.weight)).sum)) := by
      refine List.map_congr_left ?_
      intro r hr
      obtain ⟨-, hp⟩ := List.mem_filter.mp hr
      simp only [Bool.and_eq_true, decide_eq_true_eq] at hp
      rw [shareOf, stepTotal_of_mem hp.1 hp.2, if_pos hT]
      ring
    rw [hmap, sum_map_mul_right _ (fun r : LinkRow => r.weight) _,
      ← mul_div_assoc, mul_comm, mul_div_assoc, div_self hT0, mul_one]

/-- C5 counterexample to the claim as stated: a lone edge of weight
`1e-9` has positive step total exactly `1e-9`, which is not below
`1e-9`, so the claim demands share `= 100 · w / total = 100` and a
share sum of 100; the code yields share 0 and sum 0. -/
theorem C5_counterexample :
    (0 : ℚ) < stepTotal [c5tiny] c5tiny ∧
    ¬ stepTotal [c5tiny] c5tiny < eps9 ∧
    c5tiny.weight / stepTotal [c5tiny] c5tiny * 100 = 100 ∧
    shareOf [c5tiny] c5tiny = 0 ∧
    (([c5tiny].filter (fun r => decide (r.levelFrom = 2020) &&
      decide (r.levelTo = 2024))).map (shareOf [c5tiny])).sum = 0 := by decide

/-- Witness: the amended C5 theorem on a concrete two-edge step with
total weight 8: shares 75 and 25 sum to 100. -/
theorem C5_witness :
    ((c5rows.filter (fun r => decide (r.levelFrom = 2020) &&
      decide (r.levelTo = 2024))).map (shareOf c5rows)).sum = 100 :=
  (C5_share_sums c5rows).2 2020 2024 (by decide)

-- --- C6: error conditions ---

theorem exists_error_iff_not_ok {p : Except String SankeyOut} :
    (∃ e, p = .error e) ↔ ¬ ∃ out, p = .ok out := by
  cases p with
  | error e => simp
  | ok out => simp

/-- C6: the pipeline fails exactly when a required column is absent, or
the step grid has fewer than 2 years, or zero aggregated edges result;
and a missing column aborts at the very first check (before any
processing), with the error naming the first absent required column.
In all other cases an `Except.ok` complete graph is returned. -/
theorem C6_failure_conditions (logFn : ℚ → ℚ) (t : Table) :
    ((∃ e, processParquetData logFn t = .error e) ↔
      ((∃ c ∈ REQUIRED_COLS, c ∉ t.cols) ∨
        (yearsOf (snapStage logFn t.rows)).length < 2 ∨
        linkRowsOf (snapStage logFn t.rows) (yearsOf (snapStage logFn t.rows)) = [])) ∧
    (∀ c, missingCol t = some c →
      processParquetData logFn t =
        .error ("Expected column " ++ c ++ " not found in data")) := by
  constructor
  · rw [exists_error_iff_not_ok, processParquetData_ok_iff]
    have hmc : missingCol t = none ↔ ¬ ∃ c ∈ REQUIRED_COLS, c ∉ t.cols := by
      unfold missingCol
      rw [List.find?_eq_none]
      constructor
      · rintro h ⟨c, hc, hnotin⟩
        have := h c hc
        simp only [Bool.not_eq_true', Bool.not_eq_false] at this
        exact hnotin (by simpa using this)
      · intro h c hc
        simp only [Bool.not_eq_true', Bool.not_eq_false]
        by_contra hcontra
        exact h ⟨c, hc, by simpa using hcontra⟩
    constructor
    · intro hne
      by_contra hor
      push_neg at hor
      refine hne ⟨hmc.mpr ?_, by omega, hor.2.2⟩
      rintro ⟨c, hc, hnotin⟩
      exact hnotin (hor.1 c hc)
    · intro hor ⟨ha, hb, hc⟩
      rcases hor with h | h | h
      · exact (hmc.mp ha) h
      · omega
      · exact hc h
  · intro c hc
    unfold processParquetData
    rw [hc]

/-- Witness: the C6 theorem at three concrete tables — a table missing
the `REGN` column (error names it), a single-year table (grid too
short), and a table whose indicator is entirely missing (zero edges). -/
theorem C6_witness :
    processParquetData sampleLog { cols := ["DT"], rows := [] } =
      .error ("Expected column " ++ "REGN" ++ " not found in data") ∧
    (∃ e, processParquetData sampleLog sampleOneYear = .error e) ∧
    (∃ e, processParquetData sampleLog sampleNoFlows = .error e) :=
  ⟨(C6_failure_conditions sampleLog { cols := ["DT"], rows := [] }).2 "REGN" (by decide),
   (C6_failure_conditions sampleLog sampleOneYear).1.mpr (Or.inr (Or.inl (by decide))),
   (C6_failure_conditions sampleLog sampleNoFlows).1.mpr (Or.inr (Or.inr (by decide)))⟩

/-- C9: the pipeline is deterministic — identical input tables yield
identical outputs (same node list and order, same coordinates, same
links with identical weights, counts, shares and colors).  The
embedding is a pure function of the table, faithfully so: the source
has no randomness, no time dependence and no concurrency after the
input bytes are decoded, its sorts are stable, and object-key iteration
order is deterministic. -/
theorem C9_deterministic (logFn : ℚ → ℚ) (t1 t2 : Table) (h : t1 = t2) :
    processParquetData logFn t1 = processParquetData logFn t2 := by rw [h]

/-- Witness: two runs on the same concrete table coincide. -/
theorem C9_witness :
    processParquetData sampleLog sampleTable = processParquetData sampleLog sampleTable :=
  C9_deterministic sampleLog sampleTable sampleTable rfl

-- --- C7: signed_log transform and global clip ---

/-- C7: in `signed_log` mode the transformed weight of `v` is
`ln(|v| + 1)` with the sign of `v` discarded and never reapplied (the
transform is even in `v` and non-negative, so the `clip(lower 0)` is
inert); and the global clip bounds are the sorted defined transformed
weights at ranks `floor(0.02 (n-1))` and `floor(0.98 (n-1))`, the clip
replacing each defined weight by `min(max(w, lo), hi)` exactly when
both bounds exist (rationals are always finite) and `hi > lo`, and
leaving the column unchanged otherwise. -/
theorem C7_signed_log_transform_and_clip :
    (∀ v : ℝ, signedLogW v = signedLogW (-v)) ∧
    (∀ v : ℝ, signedLogW v = Real.log (|v| + 1) ∧ 0 ≤ signedLogW v) ∧
    (∀ ws : List (Option ℚ), ws.filterMap id = [] → applyGlobalClip ws = ws) ∧
    (∀ ws : List (Option ℚ), ∀ lo hi : ℚ, clipBoundsOf ws = some (lo, hi) →
      lo = (List.insertionSort (· ≤ ·) (ws.filterMap id)).getD
        (Nat.floor (CLIP_LO * (((ws.filterMap id).length : ℚ) - 1))) 0 ∧
      hi = (List.insertionSort (· ≤ ·) (ws.filterMap id)).getD
        (Nat.floor (CLIP_HI * (((ws.filterMap id).length : ℚ) - 1))) 0 ∧
      (lo < hi → ∀ i : ℕ, (applyGlobalClip ws)[i]? =
        (ws[i]?).map (Option.map (fun v => min (max v lo) hi))) ∧
      (¬ lo < hi → applyGlobalClip ws = ws)) := by
  refine ⟨?_, ?_, ?_, ?_⟩
  · intro v
    unfold signedLogW
    rw [abs_neg]
  · intro v
    have h1 : (0 : ℝ) ≤ Real.log (|v| + 1) :=
      Real.log_nonneg (by linarith [abs_nonneg v])
    unfold signedLogW
    exact ⟨max_eq_left h1, le_max_right _ _⟩
  · intro ws hnil
    unfold applyGlobalClip clipBoundsOf
    rw [hnil]
    simp
  · intro ws lo hi hb
    have hlen : (List.insertionSort (· ≤ ·) (ws.filterMap id)).length =
        (ws.filterMap id).length := List.length_insertionSort _ _
    unfold clipBoundsOf at hb
    by_cases hz : (List.insertionSort (· ≤ ·) (ws.filterMap id)).length = 0
    · rw [if_pos hz] at hb
      cases hb
    · rw [if_neg hz] at hb
      injection hb with hb
      have hlo : lo = (List.insertionSort (· ≤ ·) (ws.filterMap id)).getD
          (Nat.floor (CLIP_LO * (((ws.filterMap id).length : ℚ) - 1))) 0 := by
        rw [← hlen]
        exact (congrArg Prod.fst hb).symm
      have hhi : hi = (List.insertionSort (· ≤ ·) (ws.filterMap id)).getD
          (Nat.floor (CLIP_HI * (((ws.filterMap id).length : ℚ) - 1))) 0 := by
        rw [← hlen]
        exact (congrArg Prod.snd hb).symm
      refine ⟨hlo, hhi, ?_, ?_⟩
      · intro hlt i
        have happ : applyGlobalClip ws =
            ws.map (Option.map (fun v => min (max v lo) hi)) := by
          unfold applyGlobalClip clipBoundsOf
          rw [if_neg hz, hb]
          show (if lo < hi then ws.map (Option.map (fun v => min (max v lo) hi))
            else ws) = ws.map (Option.map (fun v => min (max v lo) hi))
          rw [if_pos hlt]
        rw [happ, List.getElem?_map]
      · intro hnlt
        have happ : applyGlobalClip ws = ws := by
          unfold applyGlobalClip clipBoundsOf
          rw [if_neg hz, hb]
          show (if lo < hi then ws.map (Option.map (fun v => min (max v lo) hi))
            else ws) = ws
          rw [if_neg hnlt]
        exact happ

/-- Witness: the C7 theorem at `v = 2` and at the column
`[some 1, some 2, some 3]`, whose clip bounds are ranks 0 and 1 of the
sorted values, i.e. `lo = 1 < hi = 2`, so the third value clips to 2. -/
theorem C7_witness :
    signedLogW 2 = signedLogW (-2) ∧
    signedLogW 2 = Real.log (|(2 : ℝ)| + 1) ∧
    (applyGlobalClip [some 1, some 2, some 3])[2]? =
      (([some 1, some 2, some 3] : List (Option ℚ))[2]?).map
        (Option.map (fun v => min (max v 1) 2)) :=
  ⟨C7_signed_log_transform_and_clip.1 2,
   (C7_signed_log_transform_and_clip.2.1 2).1,
   (C7_signed_log_transform_and_clip.2.2.2 [some 1, some 2, some 3] 1 2
     (by decide)).2.2.1 (by norm_num) 2⟩

-- --- C8: forward-filled year-end snapshot ---

theorem ffillGo_getLast (l : List (Option ℚ)) :
    ∀ acc, l ≠ [] → (ffillGo acc l).getLast? =
      some (l.foldl (fun a v => if v.isSome then v else a) acc) := by
  induction l with
  | nil => intro acc h; exact absurd rfl h
  | cons v vs ih =>
    intro acc hcons
    cases vs with
    | nil => rfl
    | cons w ws =>
      show ((if v.isSome then v else acc) ::
        (if w.isSome then w else if v.isSome then v else acc) ::
          ffillGo (if w.isSome then w else if v.isSome then v else acc) ws).getLast? = _
      rw [List.getLast?_cons_cons]
      exact ih (if v.isSome then v else acc) (List.cons_ne_nil w ws)

theorem ffillLastVal_eq_lastSome (l : List (Option ℚ)) :
    ffillLastVal l = lastSome l := by
  cases l with
  | nil => rfl
  | cons v vs =>
    unfold ffillLastVal ffillList lastSome
    rw [ffillGo_getLast (v :: vs) none (List.cons_ne_nil v vs)]
    rfl

/-- C8: for every `(entity, year)` key appearing in the data, the group
of its rows (in chronological order) is non-empty and the snapshot's
columns each carry the group's last non-missing value — the
chronologically last row after forward-filling, where each missing cell
takes the nearest preceding defined value of the same group.  The
`indicator_ma` column is characterised before the raw-indicator
fallback patch of source lines 184-188. -/
theorem C8_snapshot_carries_last_defined (rows : List MRow) :
    ∀ k ∈ snapKeys rows,
      groupRows rows k ≠ [] ∧
      (mergedSnapRow rows k).pct = lastSome ((groupRows rows k).map (·.pct)) ∧
      (mergedSnapRow rows k).ind = lastSome ((groupRows rows k).map (·.ind)) ∧
      ffillLastVal ((groupRows rows k).map (·.ma)) =
        lastSome ((groupRows rows k).map (·.ma)) := by
  intro k hk
  have hne : groupRows rows k ≠ [] := by
    rw [snapKeys, mem_dedupF] at hk
    simp only [List.mem_map] at hk
    obtain ⟨r, hr, rfl⟩ := hk
    refine List.ne_nil_of_mem (a := r) ?_
    unfold groupRows
    rw [List.mem_filter]
    exact ⟨hr, by simp⟩
  refine ⟨hne, ?_, ?_, ffillLastVal_eq_lastSome _⟩
  · show ffillLastVal ((groupRows rows k).map (·.pct)) = _
    exact ffillLastVal_eq_lastSome _
  · show ffillLastVal ((groupRows rows k).map (·.ind)) = _
    exact ffillLastVal_eq_lastSome _

/-- Witness: the January scenario — entity 1 records 30% in the first
2021 observation and nothing later; the yearly snapshot carries 30. -/
theorem C8_witness :
    (mergedSnapRow janRows (1, 2021)).pct =
      lastSome ((groupRows janRows (1, 2021)).map (·.pct)) ∧
    lastSome ((groupRows janRows (1, 2021)).map (·.pct)) = some 30 :=
  ⟨(C8_snapshot_carries_last_defined janRows (1, 2021) (by decide)).2.1, by decide⟩
